import Mathlib

/-!
Shallow embedding of the corporate-finance statistics library
(`src/prelude.rs`, `src/ratios/risk_metrics.rs`, `src/lib.rs`).

Modelling conventions:
* `f64` values are modelled as exact rationals (`ℚ`) in the statistics
  layer (`mean`, `variance`, `covariance`, `Beta`), which keeps every
  definition computable and every predicate decidable.  The Sharpe layer
  needs a square root, so its results live in `ℝ`.
* Rust panics (`assert!`, `assert_eq!`) are modelled by `Option`:
  `none` is a fault that produces no value.
* Two IEEE-754 edge behaviours that `ℚ` cannot express get dedicated
  refinements: `meanF` makes the `0.0 / 0.0 = NaN` edge of `mean`
  explicit via `fdiv`, and `F64Bits` models the raw 64-bit payload so
  that the sign-bit predicates `is_sign_negative` / `is_sign_positive`
  (and hence `Beta::is_negative` / `Beta::is_positive`) can be stated
  for signed zeros and NaN payloads.
-/

namespace CorpFin

/-- `mean` from `src/prelude.rs`: the sum of all elements divided by the
element count (`series.iter().sum::<f64>() / n`).  In `ℚ` the division
of the empty series is `0 / 0 = 0`; the IEEE `NaN` result of the source
is modelled by `meanF` below. -/
def mean (series : List ℚ) : ℚ :=
  series.sum / (series.length : ℚ)

/-- The result of one IEEE-754 division on exact operands: a finite
number, a signed infinity, or NaN. -/
inductive FDiv where
  | num (x : ℚ)
  | posInf
  | negInf
  | nan
deriving DecidableEq

/-- IEEE-754 `f64` division on exact values: `0 / 0` is NaN, a nonzero
numerator over zero is a signed infinity, otherwise the exact quotient.
(`ℚ` has no signed zero, so the divisor-sign choice between the two
infinities is not modelled; only the `0 / 0` case is used below.) -/
def fdiv (a b : ℚ) : FDiv :=
  if b = 0 then
    if a = 0 then FDiv.nan
    else if 0 < a then FDiv.posInf
    else FDiv.negInf
  else FDiv.num (a / b)

/-- `mean` with the source's floating-point division made explicit: the
empty series divides the empty sum `0.0` by the count `0.0`. -/
def meanF (series : List ℚ) : FDiv :=
  fdiv series.sum (series.length : ℚ)

/-- `variance` from `src/prelude.rs`: average of the squared deviations
from the mean, divisor = N.  When `pre_computed_mean` is present its
value is used verbatim; when absent the mean is computed from the
series. -/
def variance (series : List ℚ) (pre_computed_mean : Option ℚ) : ℚ :=
  let count : ℚ := (series.length : ℚ)
  let m : ℚ :=
    match pre_computed_mean with
    | some m => m
    | none => mean series
  (series.map (fun x => (x - m) * (x - m))).sum / count

/-- `covariance` from `src/prelude.rs`: average over index positions of
`(x i - mean x) * (y i - mean y)`, divisor = `x.len()`.  The source
asserts `x.len() == y.len()`; the panic is modelled as `none`.  (Rust's
`zip` truncates at the shorter list exactly as `List.zip` does.) -/
def covariance (x y : List ℚ) (pre_computed_mean : Option (ℚ × ℚ)) : Option ℚ :=
  let means : ℚ × ℚ :=
    match pre_computed_mean with
    | some p => p
    | none => (mean x, mean y)
  if x.length = y.length then
    some (((x.zip y).map (fun p => (p.1 - means.1) * (p.2 - means.2))).sum / (x.length : ℚ))
  else
    none

/-- `standard_deviation` from `src/prelude.rs`: the square root of the
variance (`variance.sqrt()`). -/
noncomputable def standard_deviation (variance : ℝ) : ℝ :=
  Real.sqrt variance

/-- `Beta` from `src/ratios/risk_metrics.rs`: a newtype around the `f64`
ratio; `value` is the tuple field `self.0`. -/
structure Beta where
  value : ℚ
deriving DecidableEq

/-- `Beta::new`: asserts equal lengths (modelled as `none`), returns the
0.0 fallback for empty input, and otherwise
`covariance!(series, market) / variance!(market)`. -/
def Beta.new (series market : List ℚ) : Option Beta :=
  if series.length = market.length then
    if series.isEmpty then some ⟨0⟩
    else (covariance series market none).map (fun cov => ⟨cov / variance market none⟩)
  else
    none

/-- `Beta::is_one`: the stored value is within `1e-6` of `1.0`. -/
def Beta.is_one (b : Beta) : Bool :=
  decide (|b.value - 1| < (1 / 1000000 : ℚ))

/-- An `f64` as its raw 64-bit payload.  This bit-level view exists for
the sign-bit predicates, which are defined on the representation (sign
bit = bit 63) and hence distinguish `-0.0` from `+0.0` and cover NaN
payloads, unlike any value-level model. -/
def F64Bits : Type := Fin (2 ^ 64)

/-- Bit 63 of the payload, the IEEE-754 sign bit. -/
def F64Bits.signBit (v : F64Bits) : Bool :=
  decide (2 ^ 63 ≤ v.val)

/-- Rust `f64::is_sign_negative`: true iff the sign bit is set
(including `-0.0` and NaNs with a set sign bit). -/
def F64Bits.is_sign_negative (v : F64Bits) : Bool :=
  v.signBit

/-- Rust `f64::is_sign_positive`: true iff the sign bit is clear
(including `+0.0` and NaNs with a clear sign bit). -/
def F64Bits.is_sign_positive (v : F64Bits) : Bool :=
  !v.signBit

/-- The bit-level view of `Beta` for the classification queries that
read only the sign bit of `self.0`. -/
structure BetaBits where
  value : F64Bits

/-- `Beta::is_negative`: `self.0.is_sign_negative()`. -/
def BetaBits.is_negative (b : BetaBits) : Bool :=
  b.value.is_sign_negative

/-- `Beta::is_positive`: `self.0.is_sign_positive()`. -/
def BetaBits.is_positive (b : BetaBits) : Bool :=
  b.value.is_sign_positive

/-- The payload of `+0.0`: all bits clear. -/
def posZeroBits : F64Bits := ⟨0, by norm_num⟩

/-- The payload of `-0.0`: only the sign bit set. -/
def negZeroBits : F64Bits := ⟨2 ^ 63, by norm_num⟩

/-- The payload `0x7FF8000000000000` of the canonical quiet NaN with a
clear sign bit. -/
def posNaNBits : F64Bits := ⟨0x7FF8000000000000, by norm_num⟩

/-- `f64::EPSILON`, the machine epsilon `2 ^ (-52)`. -/
noncomputable def EPSILON : ℝ := 1 / 2 ^ 52

/-- `internal_sharpe` from `src/ratios/risk_metrics.rs`.  Series mode
computes `portfolio_ret = mean!(series)` and
`std_div = sd!(variance!(series, portfolio_ret))`; summary mode asserts
both `rp` and `sd` are present (a missing one is a fault, modelled
`none`).  Either mode returns `0.0` when the resolved standard
deviation is below `f64::EPSILON`, else `(portfolio_ret - rf) /
std_div`. -/
noncomputable def internal_sharpe (series : Option (List ℚ)) (rf : ℝ)
    (rp : Option ℝ) (sd : Option ℝ) : Option ℝ :=
  match series with
  | some s =>
      let portfolio_ret : ℝ := ((mean s : ℚ) : ℝ)
      let std_div : ℝ := standard_deviation ((variance s (some (mean s)) : ℚ) : ℝ)
      some (if std_div < EPSILON then 0 else (portfolio_ret - rf) / std_div)
  | none =>
      match rp, sd with
      | some p, some d => some (if d < EPSILON then 0 else (p - rf) / d)
      | _, _ => none

/-- `sharpe` from `src/ratios/risk_metrics.rs`: the public series-mode
entry point, `internal_sharpe(Some(series), rf, None, None)`. -/
noncomputable def sharpe (series : List ℚ) (rf : ℝ) : Option ℝ :=
  internal_sharpe (some series) rf none none

/-- Summing `(p.1 - m) * (p.2 - m)` over `X.zip X` is summing the
squared deviations over `X`. -/
theorem zip_self_sq_sum (m : ℚ) (X : List ℚ) :
    ((X.zip X).map (fun p => (p.1 - m) * (p.2 - m))).sum
      = (X.map (fun x => (x - m) * (x - m))).sum := by
  induction X with
  | nil => rfl
  | cons x xs ih => simp [List.zip_cons_cons, ih]

/-- Swapping the zipped lists and the two means leaves the covariance
numerator unchanged. -/
theorem zip_swap_prod_sum (mx my : ℚ) (X : List ℚ) : ∀ Y : List ℚ,
    ((X.zip Y).map (fun p => (p.1 - mx) * (p.2 - my))).sum
      = ((Y.zip X).map (fun p => (p.1 - my) * (p.2 - mx))).sum := by
  induction X with
  | nil => intro Y; cases Y <;> rfl
  | cons x xs ih =>
      intro Y
      cases Y with
      | nil => rfl
      | cons y ys =>
          simp only [List.zip_cons_cons, List.map_cons, List.sum_cons, ih ys]
          ring

/-- Claim C2: `Beta::new` on two empty series returns the explicit
fallback `Beta(0.0)`, so its `value()` is exactly 0. -/
theorem beta_empty_zero :
    Beta.new ([] : List ℚ) ([] : List ℚ) = some ⟨0⟩ ∧
      (Beta.new ([] : List ℚ) ([] : List ℚ)).map Beta.value = some 0 :=
  ⟨rfl, rfl⟩

/-- Claim C4: a length mismatch is a fault (no value is produced), both
in `Beta::new` and in `covariance`, whatever the precomputed-mean
argument. -/
theorem length_mismatch_faults :
    (∀ series market : List ℚ,
        series.length ≠ market.length → Beta.new series market = none) ∧
    (∀ (x y : List ℚ) (pm : Option (ℚ × ℚ)),
        x.length ≠ y.length → covariance x y pm = none) := by
  constructor
  · intro s m h
    unfold Beta.new
    rw [if_neg h]
  · intro x y pm h
    unfold covariance
    rw [if_neg h]

/-- Witness for C4: `Beta::new` and `covariance` on a one-element series
against an empty one both fault. -/
theorem length_mismatch_faults_witness :
    Beta.new [1] ([] : List ℚ) = none ∧ covariance [1] ([] : List ℚ) none = none :=
  ⟨length_mismatch_faults.1 [1] [] (by decide),
   length_mismatch_faults.2 [1] [] none (by decide)⟩

/-- Claim C5: `Beta::is_negative` is exactly the sign-bit test (true on
`-0.0`) and `Beta::is_positive` is exactly its complement (true on
`+0.0`); neither orders the value against 0. -/
theorem beta_sign_bit_semantics :
    (∀ b : BetaBits,
        b.is_negative = b.value.signBit ∧ b.is_positive = !b.value.signBit) ∧
    (BetaBits.mk negZeroBits).is_negative = true ∧
    (BetaBits.mk posZeroBits).is_positive = true ∧
    (BetaBits.mk negZeroBits).is_positive = false ∧
    (BetaBits.mk posZeroBits).is_negative = false := by
  refine ⟨fun b => ⟨rfl, rfl⟩, ?_, ?_, ?_, ?_⟩ <;> decide

/-- Claim C10: for every 64-bit payload, `is_positive` is the exact
complement of `is_negative`; a NaN payload with a clear sign bit
classifies as positive. -/
theorem beta_sign_complement :
    (∀ v : F64Bits,
        (BetaBits.mk v).is_positive = !(BetaBits.mk v).is_negative) ∧
    (BetaBits.mk posNaNBits).is_positive = true ∧
    (BetaBits.mk posNaNBits).is_negative = false :=
  ⟨fun v => rfl, by decide, by decide⟩

/-- Claim C6: `mean` returns the sum of the elements divided by the
count, and on the empty series the division `0.0 / 0.0` produces NaN. -/
theorem mean_contract (s : List ℚ) (h : s ≠ []) :
    meanF s = FDiv.num (s.sum / (s.length : ℚ)) ∧
      meanF ([] : List ℚ) = FDiv.nan ∧
      mean s = s.sum / (s.length : ℚ) := by
  refine ⟨?_, rfl, rfl⟩
  unfold meanF fdiv
  rw [if_neg]
  exact Nat.cast_ne_zero.mpr (fun h0 => h (List.length_eq_zero.mp h0))

/-- Witness for C6 at the series `[1, 2, 3]`. -/
theorem mean_contract_witness :
    meanF [1, 2, 3] = FDiv.num ((([1, 2, 3] : List ℚ).sum) / ((([1, 2, 3] : List ℚ).length : ℚ))) ∧
      meanF ([] : List ℚ) = FDiv.nan ∧
      mean [1, 2, 3] = (([1, 2, 3] : List ℚ).sum) / ((([1, 2, 3] : List ℚ).length : ℚ)) :=
  mean_contract [1, 2, 3] (by decide)

/-- Claim C8: for a non-empty series, computing the mean internally and
passing the exact same mean as the precomputed value give the same
variance, and a supplied mean is used verbatim in the squared
deviations. -/
theorem variance_precomputed_mean_agrees (S : List ℚ) (_h : S ≠ []) :
    variance S none = variance S (some (mean S)) ∧
      ∀ m : ℚ,
        variance S (some m) = (S.map (fun x => (x - m) * (x - m))).sum / (S.length : ℚ) :=
  ⟨rfl, fun _ => rfl⟩

/-- Witness for C8 at the series `[1, 2]`. -/
theorem variance_precomputed_mean_agrees_witness :
    variance [1, 2] none = variance [1, 2] (some (mean [1, 2])) ∧
      ∀ m : ℚ,
        variance [1, 2] (some m)
          = (([1, 2] : List ℚ).map (fun x => (x - m) * (x - m))).sum / ((([1, 2] : List ℚ).length : ℚ)) :=
  variance_precomputed_mean_agrees [1, 2] (by decide)

/-- Covariance with explicitly supplied means is symmetric once the
means are swapped along with the series. -/
theorem covariance_swap (X Y : List ℚ) (mx my : ℚ) :
    covariance X Y (some (mx, my)) = covariance Y X (some (my, mx)) := by
  unfold covariance
  by_cases h : X.length = Y.length
  · rw [if_pos h, if_pos h.symm]
    rw [zip_swap_prod_sum mx my X Y, h]
  · rw [if_neg h, if_neg (fun hh => h hh.symm)]

/-- Claim C7: covariance is symmetric, both with internally computed
means and with a precomputed mean pair swapped along with the series. -/
theorem covariance_symmetric (X Y : List ℚ) :
    covariance X Y none = covariance Y X none ∧
      ∀ mx my : ℚ,
        covariance X Y (some (mx, my)) = covariance Y X (some (my, mx)) := by
  constructor
  · unfold covariance
    by_cases h : X.length = Y.length
    · rw [if_pos h, if_pos h.symm]
      rw [zip_swap_prod_sum (mean X) (mean Y) X Y, h]
    · rw [if_neg h, if_neg (fun hh => h hh.symm)]
  · exact covariance_swap X Y

/-- On equal-length inputs `covariance` computes a value; against the
series itself with internally computed means it is exactly the
variance. -/
theorem covariance_self_eq_variance (X : List ℚ) :
    covariance X X none = some (variance X none) := by
  unfold covariance variance
  rw [if_pos rfl]
  rw [zip_self_sq_sum (mean X) X]

/-- Claim C3: for a series whose variance is nonzero, the beta of the
series against itself is exactly 1, hence within the `1e-6` tolerance
of `is_one`, because covariance of a series with itself is its
variance. -/
theorem beta_self_is_one (X : List ℚ) (h : variance X none ≠ 0) :
    ∃ b : Beta, Beta.new X X = some b ∧ b.value = 1 ∧ b.is_one = true := by
  have hne : ¬ X.isEmpty = true := by
    intro he
    apply h
    rw [List.isEmpty_iff.mp he]
    simp [variance]
  have hnew : Beta.new X X = some ⟨variance X none / variance X none⟩ := by
    unfold Beta.new
    rw [if_pos rfl, if_neg hne, covariance_self_eq_variance X]
    rfl
  refine ⟨⟨1⟩, ?_, rfl, by norm_num [Beta.is_one]⟩
  rw [hnew, div_self h]

/-- Witness for C3 at the non-constant series `[0, 2]`, whose variance
is 1. -/
theorem beta_self_is_one_witness :
    variance [0, 2] none ≠ 0 ∧
      ∃ b : Beta, Beta.new [0, 2] [0, 2] = some b ∧ b.value = 1 ∧ b.is_one = true :=
  ⟨by norm_num [variance, mean], beta_self_is_one [0, 2] (by norm_num [variance, mean])⟩

/-- Claim C1: in series mode `sharpe` resolves the portfolio return to
`mean(series)` and the standard deviation to
`standard_deviation(variance(series, Some(mean(series))))`; in summary
mode it uses the supplied `rp` and `sd`.  In both modes the result is 0
when the resolved standard deviation is below `f64::EPSILON` and
`(portfolio_return - rf) / std_dev` otherwise. -/
theorem sharpe_contract :
    (∀ (series : List ℚ) (rf : ℝ),
        sharpe series rf =
          some
            (if standard_deviation ((variance series (some (mean series)) : ℚ) : ℝ) < EPSILON
              then 0
              else (((mean series : ℚ) : ℝ) - rf) /
                standard_deviation ((variance series (some (mean series)) : ℚ) : ℝ))) ∧
    (∀ rp rf sd : ℝ,
        internal_sharpe none rf (some rp) (some sd) =
          some (if sd < EPSILON then 0 else (rp - rf) / sd)) :=
  ⟨fun _ _ => rfl, fun _ _ _ => rfl⟩

/-- Claim C9: summary-mode Sharpe (no series) faults when either the
precomputed portfolio return or the precomputed standard deviation is
absent. -/
theorem summary_sharpe_requires_rp_sd (rf : ℝ) (rp sd : Option ℝ)
    (h : rp = none ∨ sd = none) :
    internal_sharpe none rf rp sd = none := by
  cases rp with
  | none => cases sd <;> rfl
  | some p =>
      cases sd with
      | none => rfl
      | some d => rcases h with h | h <;> exact Option.noConfusion h

/-- Witness for C9: summary mode with the portfolio return absent
faults. -/
theorem summary_sharpe_requires_rp_sd_witness :
    internal_sharpe none 0 none (some 1) = none :=
  summary_sharpe_requires_rp_sd 0 none (some 1) (Or.inl rfl)

end CorpFin
